import Mathlib

/-!
Verification of the PortRecon resumable scanning pipeline.

The development shallowly embeds the two scripts of the repository:

* `scanner.py` (the nmap scanner): target-range expansion (`to_nmap_range`),
  the per-target retry loop (`scan_target`), the module-level scheduler and
  checkpoint/result-file handling, and the progress/ETA line
  (`print_progress`).
* `2.ollama-checker.py`: state loading (`load_state`), the resumable
  check loop of `main`, the progress bar (`update_progress`), and
  the `fetch_ollama_info` helper of the model-list variant.

Python strings are modelled as `List Char` (Lean 4.14 strings are
`List Char`-backed so `String` is used interchangeably where convenient);
Python numbers that the scripts use as exact quantities are modelled as
`Nat`/`ℚ`; exceptional control flow is modelled with `Option`/`Except`
constructors.  Network and scanner I/O is supplied by explicit oracle
arguments, so every definition is executable.
-/

namespace PortRecon

/-- Python `str.split(sep)` for a one-character separator, on the
character-list model of strings: splits at every occurrence of `sep` and
keeps empty fragments (`"".split(".") == [""]`, `".".split(".") == ["", ""]`). -/
def pySplit (sep : Char) : List Char → List (List Char)
  | [] => [[]]
  | c :: cs =>
    if c = sep then
      [] :: pySplit sep cs
    else
      match pySplit sep cs with
      | [] => [[c]]
      | g :: gs => (c :: g) :: gs

/-- Value of one decimal digit character, `none` on a non-digit. -/
def digVal (c : Char) : Option Nat :=
  if '0' ≤ c ∧ c ≤ '9' then some (c.toNat - '0'.toNat) else none

/-- Python `int(s)` restricted to non-negative decimal numerals, which is
the only form the scripts feed it: `none` models the `ValueError` raised on
anything that is not a non-empty digit string.  (Signs and surrounding
whitespace, which `int` would also accept, never occur in the inputs the
claims quantify over.) -/
def pyIntNat (s : List Char) : Option Nat :=
  if s.isEmpty then none
  else s.foldlM (fun a c => (digVal c).map (fun d => 10 * a + d)) 0

/-- The digit string Python's `str(n)` prints for a non-negative integer,
via Lean's decimal printer. -/
def natChars (n : Nat) : List Char :=
  (Nat.repr n).data

/-- Python `list(map(int, parts))`: converts every fragment, propagating
the `ValueError` (`none`) raised by the first non-numeric fragment. -/
def pyMapInt : List (List Char) → Option (List Nat)
  | [] => some []
  | s :: rest => do
    let n ← pyIntNat s
    let ns ← pyMapInt rest
    pure (n :: ns)

/-! ## Target Expander (`to_nmap_range`, scanner.py) -/

/-- The dotted-quad string `"o0.o1.o2.o3"` built from four octet values,
used to quantify over all dotted-quad endpoint addresses. -/
def addrChars (o0 o1 o2 o3 : Nat) : List Char :=
  natChars o0 ++ '.' :: natChars o1 ++ '.' :: natChars o2 ++ '.' :: natChars o3

/-- One component `"s-e"` of a compact range expression. -/
def octetRange (s e : Nat) : List Char :=
  natChars s ++ '-' :: natChars e

/-- The compact range expression `"s0-e0.s1-e1.s2-e2.s3-e3"` over octet
values, the shape of the f-string in `to_nmap_range`. -/
def rangeChars (s0 s1 s2 s3 e0 e1 e2 e3 : Nat) : List Char :=
  octetRange s0 e0 ++ '.' ::
  (octetRange s1 e1 ++ '.' ::
  (octetRange s2 e2 ++ '.' ::
  octetRange s3 e3))

/-- Embedding of `to_nmap_range(start, end)` from scanner.py:

    s = list(map(int, start.split('.')))
    e = list(map(int, end.split('.')))
    return f"{s[0]}-{e[0]}.{s[1]}-{e[1]}.{s[2]}-{e[2]}.{s[3]}-{e[3]}"

`none` models the exceptions the Python body can raise (a `ValueError`
from `int` on a non-numeric component, or an `IndexError` when an address
has fewer than four components). -/
def to_nmap_range (start stop : List Char) : Option (List Char) := do
  let s ← pyMapInt (pySplit '.' start)
  let e ← pyMapInt (pySplit '.' stop)
  let s0 ← s.get? 0
  let s1 ← s.get? 1
  let s2 ← s.get? 2
  let s3 ← s.get? 3
  let e0 ← e.get? 0
  let e1 ← e.get? 1
  let e2 ← e.get? 2
  let e3 ← e.get? 3
  pure (rangeChars s0 s1 s2 s3 e0 e1 e2 e3)

/-- Whether one component `"lo-hi"` of a range expression covers the octet
value `a`.  This is the independent octet-wise re-expansion semantics the
specification describes: the component is split on `-`, both endpoints are
read as decimal numbers, and `a` must lie in the closed interval. -/
def octetMatches (part : List Char) (a : Nat) : Bool :=
  match pySplit '-' part with
  | [x, y] =>
    match pyIntNat x, pyIntNat y with
    | some lo, some hi => decide (lo ≤ a ∧ a ≤ hi)
    | _, _ => false
  | _ => false

/-- Independent re-expansion of a four-component range expression: the
address `(a0, a1, a2, a3)` is covered exactly when every octet position is
covered by the corresponding component. -/
def rangeExprMatches (expr : List Char) (a0 a1 a2 a3 : Nat) : Bool :=
  match pySplit '.' expr with
  | [p0, p1, p2, p3] =>
    octetMatches p0 a0 && octetMatches p1 a1 && octetMatches p2 a2 && octetMatches p3 a3
  | _ => false

/-! ## Scanner pipeline model (scanner.py)

`scan_target` is modelled as a function from a per-attempt probe oracle to
the outcome it returns plus the sequence of atomic effects it performs
(CSV row appends, in-memory completion marking, checkpoint saves, backoff
sleeps).  The module-level scheduler is a small-step machine that
interleaves the per-target effect sequences in any order, which models the
thread pool. -/

/-- `PORTS = "11434"` from scanner.py. -/
def PORTS : List Char := "11434".data

/-- `RETRIES = 3` from scanner.py. -/
def RETRIES : Nat := 3

/-- `ports_list = [int(p) for p in PORTS.split(",")]` from `scan_target`
(the conversion cannot fail on the literal `"11434"`, so the exceptional
branch of `int` is defaulted away). -/
def ports_list : List Nat :=
  (pyMapInt (pySplit ',' PORTS)).getD []

/-- One CSV row (the file is row-oriented; the header row is implicit). -/
abbrev Row := List String

/-- Result of one `nm.scan` attempt on a target: either the call (or the
processing of its results) raises, or it yields the scanned hosts, each
with the set of ports observed in state `open` (membership models
`nm[host].has_tcp(p) and nm[host]['tcp'][p]['state'] == 'open'`). -/
inductive ScanAttempt
  | raises
  | ok (hosts : List (String × List Nat))
deriving DecidableEq

/-- `open_ports` for one host: the configured ports that are open on it,
rendered as decimal strings (`str(p)`). -/
def openPortStrs (hostPorts : List Nat) : List String :=
  (ports_list.filter (fun p => hostPorts.contains p)).map
    (fun p => String.mk (natChars p))

/-- The CSV row `[host, ",".join(open_ports)]` written for a host. -/
def hostRow (h : String × List Nat) : Row :=
  [h.1, String.intercalate "," (openPortStrs h.2)]

/-- The rows `scan_target` appends for one successful attempt: one row per
host whose `open_ports` list is non-empty, in host order. -/
def rowsFor (hosts : List (String × List Nat)) : List Row :=
  (hosts.filter (fun h => !(openPortStrs h.2).isEmpty)).map hostRow

/-- Atomic effects of `scan_target` on the durable world: appending one
row to the results CSV, appending the target to the in-memory completed
list (under `state_lock`), persisting the in-memory state (`save_state`),
and the retry backoff `time.sleep(d)`. -/
inductive Ev
  | appendRow (r : Row)
  | markMem (t : String)
  | saveState
  | sleep (d : Nat)
deriving DecidableEq

/-- The value `scan_target` returns: `len(nm.all_hosts())` from the `try`
body, or the `0` returned when the final attempt raised. -/
inductive ScanOutcome
  | success (hostCount : Nat)
  | failure
deriving DecidableEq

/-- Return value and effect trace of one `scan_target` call, with counts
of probe invocations (`nm.scan` calls) and backoff sleeps. -/
structure ScanRes where
  outcome : ScanOutcome
  events : List Ev
  invocations : Nat
  sleeps : Nat
deriving DecidableEq

/-- The retry loop `for attempt in range(RETRIES)` of `scan_target`,
with `fuel` the number of remaining iterations:

    try:
        nm.scan(...)                    # probe attempt
        ... append CSV rows ...         # one per host with open ports
        state["completed_targets"].append(target)
        save_state()
        return len(nm.all_hosts())
    except Exception:
        if attempt + 1 == RETRIES:
            return 0
        time.sleep(2)

Exceptions never escape: both branches of the `except` arm are modelled
(return `failure`, or sleep 2 and retry). -/
def scanLoop (t : String) (probe : Nat → ScanAttempt) : Nat → Nat → ScanRes
  | _, 0 => { outcome := .failure, events := [], invocations := 0, sleeps := 0 }
  | attempt, fuel + 1 =>
    match probe attempt with
    | .ok hosts =>
      { outcome := .success hosts.length
        events := (rowsFor hosts).map .appendRow ++ [.markMem t, .saveState]
        invocations := 1
        sleeps := 0 }
    | .raises =>
      if fuel = 0 then
        { outcome := .failure, events := [], invocations := 1, sleeps := 0 }
      else
        let r := scanLoop t probe (attempt + 1) fuel
        { outcome := r.outcome
          events := .sleep 2 :: r.events
          invocations := r.invocations + 1
          sleeps := r.sleeps + 1 }

/-- `scan_target(target)`: the retry loop started at attempt 0 with the
full `RETRIES` budget. -/
def scan_target (t : String) (probe : Nat → ScanAttempt) : ScanRes :=
  scanLoop t probe 0 RETRIES

/-- Durable world of the scanner: the results CSV contents (rows after
the header), the in-memory `state["completed_targets"]`, and the copy of
it last written to `state.json`. -/
structure SWorld where
  csv : List Row
  memState : List String
  diskState : List String
deriving DecidableEq

/-- Effect of one atomic event on the world.  `saveState` publishes the
current in-memory completed list to disk. -/
def applyEv (w : SWorld) : Ev → SWorld
  | .appendRow r => { w with csv := w.csv ++ [r] }
  | .markMem t => { w with memState := w.memState ++ [t] }
  | .saveState => { w with diskState := w.memState }
  | .sleep _ => w

/-- The rows a trace appends to the CSV. -/
def appendedRows (evs : List Ev) : List Row :=
  evs.filterMap fun e =>
    match e with
    | .appendRow r => some r
    | _ => none

/-- The interesting outcome of a target under a probe family: the rows its
`scan_target` call appends to the results CSV. -/
def rowsOfTarget (probe : String → Nat → ScanAttempt) (t : String) : List Row :=
  appendedRows (scan_target t (probe t)).events

/-- A scheduler configuration: the world plus the not-yet-performed
effect suffix of every in-flight worker. -/
abbrev SConfig := SWorld × List (List Ev)

/-- One scheduler step: some worker performs its next pending effect.
Workers are interleaved arbitrarily, which models the thread pool (each
effect is atomic because the script guards the CSV and the state with
locks and each row write opens, writes and closes the file). -/
inductive SchedStep : SConfig → SConfig → Prop
  | fire (w : SWorld) (pre : List (List Ev)) (e : Ev) (rest : List Ev)
      (post : List (List Ev)) :
      SchedStep (w, pre ++ (e :: rest) :: post) (applyEv w e, pre ++ rest :: post)

/-- Reachability of scheduler configurations. -/
def SchedReach : SConfig → SConfig → Prop :=
  Relation.ReflTransGen SchedStep

/-- The initial configuration of one scanner run: state loaded from disk
(`memState = diskState = S0`), the CSV holding rows `csv0`, and one
pending effect sequence per target that is not yet completed
(`if t not in state["completed_targets"]`). -/
def initConfig (probe : String → Nat → ScanAttempt) (targets : List String)
    (S0 : List String) (csv0 : List Row) : SConfig :=
  (⟨csv0, S0, S0⟩,
    (targets.filter (fun t => !decide (t ∈ S0))).map
      (fun t => (scan_target t (probe t)).events))

/-- A pending effect suffix is consistent with the CSV contents: every
completion marker in it is preceded (within the suffix, or already in the
CSV) by the appends of that target's interesting rows. -/
inductive PendOK (R : String → List Row) : List Row → List Ev → Prop
  | done (csv : List Row) : PendOK R csv []
  | slp (csv : List Row) (d : Nat) (rest : List Ev) :
      PendOK R csv rest → PendOK R csv (.sleep d :: rest)
  | app (csv : List Row) (r : Row) (rest : List Ev) :
      PendOK R (csv ++ [r]) rest → PendOK R csv (.appendRow r :: rest)
  | mark (csv : List Row) (t : String) (rest : List Ev) :
      (∀ r ∈ R t, r ∈ csv) → PendOK R csv rest → PendOK R csv (.markMem t :: rest)
  | save (csv : List Row) (rest : List Ev) :
      PendOK R csv rest → PendOK R csv (.saveState :: rest)

/-- Configuration invariant: both the in-memory and the on-disk completed
lists only hold targets whose interesting rows are in the CSV, and every
pending effect suffix is consistent. -/
def GoodCfg (R : String → List Row) (cfg : SConfig) : Prop :=
  (∀ t ∈ cfg.1.memState, ∀ r ∈ R t, r ∈ cfg.1.csv) ∧
  (∀ t ∈ cfg.1.diskState, ∀ r ∈ R t, r ∈ cfg.1.csv) ∧
  (∀ evs ∈ cfg.2, PendOK R cfg.1.csv evs)

/-! ## Progress Reporter models

The scripts do this arithmetic on Python numbers (ints and floats); the
model uses exact rationals for the quantities and `Option` for the
`ZeroDivisionError` a float division can raise. -/

/-- Python float division `a / b`; `none` models `ZeroDivisionError`. -/
def pyDiv (a b : ℚ) : Option ℚ :=
  if b = 0 then none else some (a / b)

/-- Python `int(x)` on a float: truncation toward zero. -/
def pyTrunc (q : ℚ) : Int :=
  if 0 ≤ q then ⌊q⌋ else -⌊-q⌋

/-- `print_progress(completed, total)` from scanner.py:

    percent = (completed / total) * 100 if total > 0 else 0
    if completed > 0:
        est_total_time = elapsed / (completed / total)
        remaining = est_total_time - elapsed
    else:
        remaining = 0
    print(f"... ({percent:.2f}%), ETA: {int(remaining)}s", ...)

`elapsed` (`time.time() - start_time`) is passed explicitly.  The result
is the triple the status line renders — the percentage (printed to two
decimal places), the remaining-time estimate, and `int(remaining)` —
with `none` modelling an uncaught `ZeroDivisionError`. -/
def print_progress (completed total : Nat) (elapsed : ℚ) : Option (ℚ × ℚ × Int) := do
  let percent ←
    if 0 < total then (pyDiv (completed : ℚ) (total : ℚ)).map (· * 100)
    else some 0
  let remaining ←
    if 0 < completed then do
      let frac ← pyDiv (completed : ℚ) (total : ℚ)
      let est ← pyDiv elapsed frac
      some (est - elapsed)
    else some 0
  some (percent, remaining, pyTrunc remaining)

/-- `update_progress(checked, total, found)` from 2.ollama-checker.py:

    percentage = (checked / total) * 100 if total > 0 else 0
    bar_length = 40
    filled = int(bar_length * checked // total) if total > 0 else 0
    bar = "█" * filled + "░" * (bar_length - filled)

Returns the rendered (percentage, filled, bar, found) data; `found` is
echoed into the status line unchanged.  Python's `//` on non-negative
ints is `Nat` division, and `"░" * n` for negative `n` is empty exactly
like truncated `Nat` subtraction. -/
def update_progress (checked total found : Nat) : Option (ℚ × Nat × List Char × Nat) := do
  let percentage ←
    if 0 < total then (pyDiv (checked : ℚ) (total : ℚ)).map (· * 100)
    else some 0
  let filled := if 0 < total then 40 * checked / total else 0
  some (percentage, filled,
    List.replicate filled '█' ++ List.replicate (40 - filled) '░', found)

/-! ## State Store models -/

/-- A checkpoint document of the checker: the `checked` key set and the
accumulated `found` records (each a `{"Host": h, "Open Ports": p}` row).
Python serializes the set as a list; the model keeps insertion order and
uses the list purely for membership. -/
structure StateDoc where
  checked : List String
  found : List (String × String)
deriving DecidableEq

/-- Contents of a checkpoint file on disk, when it exists: a parseable
document, or corrupt/unreadable bytes on which `json.load` raises. -/
inductive StateFileData
  | valid (doc : StateDoc)
  | corrupt
deriving DecidableEq

/-- What a state-loading call does: return a document, or raise. -/
inductive LoadResult
  | ok (doc : StateDoc)
  | raises
deriving DecidableEq

/-- The empty checkpoint `{"checked": set(), "found": []}`. -/
def emptyStateDoc : StateDoc := ⟨[], []⟩

/-- `load_state()` from 2.ollama-checker.py (the argument is the current
state of `ollama-state.json`: absent, corrupt, or valid):

    if os.path.exists(STATE_FILE):
        try:
            with open(STATE_FILE, "r") as f:
                return json.load(f)
        except:
            return {"checked": set(), "found": []}
    return {"checked": set(), "found": []}
-/
def load_state : Option StateFileData → LoadResult
  | none => .ok emptyStateDoc
  | some (.valid doc) => .ok doc
  | some .corrupt => .ok emptyStateDoc

/-- Scanner-side checkpoint file contents (`state.json` holds
`{"completed_targets": [...]}`). -/
inductive ScannerStateFile
  | valid (completed : List String)
  | corrupt
deriving DecidableEq

/-- What the scanner's module-level state load does. -/
inductive ScannerLoadResult
  | ok (completed : List String)
  | raises
deriving DecidableEq

/-- The module-level state load of scanner.py:

    if os.path.exists(STATE_FILE):
        with open(STATE_FILE, "r") as f:
            state = json.load(f)
    else:
        state = {"completed_targets": []}

Nothing catches a `json.load` failure here, so a corrupt file raises. -/
def scanner_load_state : Option ScannerStateFile → ScannerLoadResult
  | none => .ok []
  | some (.valid l) => .ok l
  | some .corrupt => .raises

/-! ## Scanner full-run model (module level of scanner.py) -/

/-- Durable files of the scanner process. -/
structure ScanWorld where
  csvFile : Option (List Row)
  stateFile : Option ScannerStateFile
deriving DecidableEq

/-- Result of one full scanner run. -/
structure ScanRunOut where
  world : ScanWorld
  invocations : Nat
deriving DecidableEq

/-- Applying a trace of effects to the world in sequence. -/
def applyEvs (w : SWorld) (evs : List Ev) : SWorld :=
  evs.foldl applyEv w

/-- The module-level scanner run, after the state was successfully loaded
as `S0`: initialize the CSV with its header if absent (`csv0` is its row
contents afterwards), submit `scan_target` for every target not in
`completed_targets`, and let the callers run (here folded sequentially;
the interleaved version is `SchedStep`).  `invocations` counts `nm.scan`
calls.  The state file on disk afterwards is the last checkpoint written,
or untouched when no target ever saved. -/
def scannerRunCore (probe : String → Nat → ScanAttempt) (targets : List String)
    (S0 : List String) (csv0 : List Row) (origState : Option ScannerStateFile) :
    ScanRunOut :=
  let filtered := targets.filter (fun t => !decide (t ∈ S0))
  let sw0 : SWorld := ⟨csv0, S0, S0⟩
  let sw := filtered.foldl (fun acc t => applyEvs acc (scan_target t (probe t)).events) sw0
  let invocs := (filtered.map (fun t => (scan_target t (probe t)).invocations)).sum
  { world :=
      { csvFile := some sw.csv
        stateFile := if sw.diskState = S0 then origState else some (.valid sw.diskState) }
    invocations := invocs }

/-- Range items parsed from `data.json`; `none` models an unreadable or
invalid file (the bare `except` makes every load failure the same).
A successfully-parsed but empty list hits `sys.exit("No data found in
the JSON file.")` inside the `try` — and that `SystemExit` is itself
caught by the bare `except`, which exits with the generic message.
`sys.exit(msg)` prints `msg` and exits with status 1. -/
def scanner_data_load {α : Type} : Option (List α) → Except (Nat × String) (List α)
  | none => .error (1, "Error reading the JSON file.")
  | some [] => .error (1, "Error reading the JSON file.")
  | some l => .ok l

/-- Substring test on character lists (used to state that an error
message names a path). -/
def startsWithL : (pat s : List Char) → Bool
  | [], _ => true
  | _ :: _, [] => false
  | p :: ps, c :: cs => p = c && startsWithL ps cs

/-- Whether `pat` occurs contiguously inside `s`. -/
def containsSub (pat : List Char) : (s : List Char) → Bool
  | [] => startsWithL pat []
  | c :: cs => startsWithL pat (c :: cs) || containsSub pat cs

/-! ## Checker full-run model (`main` of 2.ollama-checker.py) -/

/-- `f"{host}:{port}"`, the checkpoint key of a unit. -/
def keyStr (h p : String) : String := h ++ ":" ++ p

/-- The checkpoint key of one input row. -/
def keyOf (r : String × String) : String := keyStr r.1 r.2

/-- `hosts_to_check`: the input rows whose key is not yet checked. -/
def hostsToCheck (checked0 : List String) (rows : List (String × String)) :
    List (String × String) :=
  rows.filter (fun r => !decide (keyOf r ∈ checked0))

/-- Durable files of the checker process. -/
structure CWorld where
  stateFile : Option StateFileData
  nmapCsv : Option (List (String × String))
  ollamaCsv : Option (List (String × String))
deriving DecidableEq

/-- In-memory loop state of `main`'s completion loop, plus the trace of
checkpoints persisted so far in this run. -/
structure CLoopSt where
  checkedSet : List String
  foundList : List (String × String)
  checkedCount : Nat
  foundCount : Nat
  savedDocs : List StateDoc
deriving DecidableEq

/-- Result of one checker run.  `savedDocs` is every checkpoint document
persisted during the run, in order; the last one (when any) is the final
content of the state file. -/
structure CRunOut where
  world : CWorld
  savedDocs : List StateDoc
  invocations : Nat
  exitCode : Nat
  msgs : List String
deriving DecidableEq

/-- The `as_completed` consumer loop of `main`:

    for future in as_completed(futures):
        host, port, is_ollama = future.result()
        checked_set.add(f"{host}:{port}")
        checked += 1
        if is_ollama:
            found += 1
            ollama_hosts.append({"Host": host, "Open Ports": port})
        update_progress(checked, total, found)
        if checked % 10 == 0 or checked == len(hosts_to_check):
            save_state(...)

`order` is the completion order (some permutation of the submitted
units), `probe` the `is_ollama` flag `check_ollama_host` returns (that
function catches its request exceptions internally and never raises), and
`intr = some k` delivers a `KeyboardInterrupt` at the iteration boundary
after `k` completions were consumed (the returned flag says whether it
fired).  `numToCheck` is `len(hosts_to_check)`. -/
def checkerStep (probe : String → String → Bool) (numToCheck : Nat)
    (st : CLoopSt) (r : String × String) : CLoopSt :=
  let st1 := { st with
    checkedSet := st.checkedSet ++ [keyOf r]
    checkedCount := st.checkedCount + 1 }
  let st2 :=
    if probe r.1 r.2 then
      { st1 with
        foundList := st1.foundList ++ [r]
        foundCount := st1.foundCount + 1 }
    else st1
  if st2.checkedCount % 10 = 0 ∨ st2.checkedCount = numToCheck then
    { st2 with savedDocs := st2.savedDocs ++ [⟨st2.checkedSet, st2.foundList⟩] }
  else st2

/-- The recursion over the completion order (see `checkerStep` for the
loop body). -/
def checkerLoop (probe : String → String → Bool) (numToCheck : Nat) :
    List (String × String) → Option Nat → CLoopSt → CLoopSt × Bool
  | [], _, st => (st, false)
  | _ :: _, some 0, st => (st, true)
  | r :: rest, none, st =>
    checkerLoop probe numToCheck rest none (checkerStep probe numToCheck st r)
  | r :: rest, some (k + 1), st =>
    checkerLoop probe numToCheck rest (some k) (checkerStep probe numToCheck st r)

/-- The loaded document (total projection of `load_state`, which never
actually raises — see `state_load_behavior`). -/
def loadResultDoc : LoadResult → StateDoc
  | .ok doc => doc
  | .raises => emptyStateDoc

/-- `main()` of 2.ollama-checker.py.  Control flow modelled:
state load; `FileNotFoundError` on the input CSV (exit 1 with a message
naming the path); the already-complete branch (rewrite `ollama.csv` from
the loaded `found` list when non-empty, exit 0, no state save); the
completion loop; `KeyboardInterrupt` (save state, print the resume
message, exit 0); normal completion (write `ollama.csv` when anything was
found, save state, exit 0). -/
def checker_main (probe : String → String → Bool)
    (order : List (String × String)) (intr : Option Nat) (w : CWorld) : CRunOut :=
  let state := loadResultDoc (load_state w.stateFile)
  match w.nmapCsv with
  | none =>
    { world := w, savedDocs := [], invocations := 0, exitCode := 1
      msgs := ["Error: nmap_results.csv not found"] }
  | some rows =>
    let toCheck := hostsToCheck state.checked rows
    if toCheck.isEmpty then
      let w1 := if state.found.isEmpty then w else { w with ollamaCsv := some state.found }
      { world := w1, savedDocs := [], invocations := 0, exitCode := 0
        msgs := ["Scan complete! All hosts have been checked."] }
    else
      let st0 : CLoopSt :=
        ⟨state.checked, state.found, state.checked.length, state.found.length, []⟩
      let res := checkerLoop probe toCheck.length order intr st0
      let st := res.1
      let doc : StateDoc := ⟨st.checkedSet, st.foundList⟩
      if res.2 then
        { world := { w with stateFile := some (.valid doc) }
          savedDocs := st.savedDocs ++ [doc]
          invocations := toCheck.length
          exitCode := 0
          msgs := ["Scan paused. Progress saved to state.json",
            "Run the script again to resume from where you left off."] }
      else
        let w1 := if st.foundList.isEmpty then w else { w with ollamaCsv := some st.foundList }
        { world := { w1 with stateFile := some (.valid doc) }
          savedDocs := st.savedDocs ++ [doc]
          invocations := toCheck.length
          exitCode := 0
          msgs := ["Scan finished."] }

/-- Consistency of one persisted checkpoint document with the run that
wrote it: it is the atomic snapshot taken after some prefix `pre` of the
completion order was consumed — its `checked` keys are the initial ones
plus exactly the keys of `pre`, and its `found` records are the initial
ones plus exactly the interesting (positive-flag) units of `pre`.  In
particular no key is persisted whose interesting outcome is missing from
the persisted `found` accumulator. -/
def DocGood (probe : String → String → Bool) (c0 : List String)
    (f0 : List (String × String)) (units : List (String × String))
    (d : StateDoc) : Prop :=
  ∃ pre suf, pre ++ suf = units ∧
    d.checked = c0 ++ pre.map keyOf ∧
    d.found = f0 ++ pre.filter (fun r => probe r.1 r.2)

/-! ## Model-list variant: `fetch_ollama_info` (3. ollama-model-list) -/

/-- JSON values as `resp.json()` can produce them. -/
inductive Jv
  | null
  | bool (b : Bool)
  | num (n : Int)
  | str (s : String)
  | arr (elems : List Jv)
  | obj (fields : List (String × Jv))

/-- Python truthiness of a JSON-derived value. -/
def Jv.truthy : Jv → Bool
  | .null => false
  | .bool b => b
  | .num n => decide (n ≠ 0)
  | .str s => !s.isEmpty
  | .arr l => !l.isEmpty
  | .obj l => !l.isEmpty

/-- `d.get(k)` on a parsed JSON object's fields: the value, or `None`. -/
def pyLookup (fields : List (String × Jv)) (k : String) : Option Jv :=
  (fields.find? (fun f => f.1 = k)).map Prod.snd

/-- `[m.get("name") for m in ms if m.get("name")]` over a list of parsed
elements: a non-dict element's `.get` raises `AttributeError` (caught by
the outer handler); for dict elements the truthy `name` values are kept
in order. -/
def modelsFromList : List Jv → Except String (List Jv)
  | [] => .ok []
  | .obj mf :: rest => do
    let vs ← modelsFromList rest
    let v := (pyLookup mf "name").getD .null
    if v.truthy then pure (v :: vs) else pure vs
  | _ :: _ => .error "AttributeError: element has no attribute get"

/-- `[m.get("name") for m in tags.get("models", []) if m.get("name")]`.
`tags.get` raises `AttributeError` when `tags` is not a dict.  Iterating
the `models` value: a list iterates its elements; a string iterates its
characters and an object its keys (both yield strings, whose `.get`
raises, unless empty, which yields `[]`); null/bool/number are not
iterable (`TypeError`).  Every raised exception is caught by the outer
handler. -/
def extract_models : Jv → Except String (List Jv)
  | .obj fields =>
    match (pyLookup fields "models").getD (.arr []) with
    | .arr ms => modelsFromList ms
    | .str s => if s.isEmpty then .ok [] else .error "AttributeError: str has no attribute get"
    | .obj mfs => if mfs.isEmpty then .ok [] else .error "AttributeError: str has no attribute get"
    | _ => .error "TypeError: object is not iterable"
  | _ => .error "AttributeError: object has no attribute get"

/-- Outcome of `requests.get(f"{base_url}/api/tags", timeout=timeout)`:
either the call raises (connection failure, timeout, ...) with a message,
or it returns a response with an HTTP status code, the JSON parse of its
body (`none` when `resp.json()` raises `ValueError`), and the raw body
text. -/
inductive HttpOut
  | raise (msg : String)
  | resp (status : Nat) (body : Option Jv) (text : String)

/-- `resp.text[:200].replace("\n", " ")`. -/
def snippet (text : String) : String :=
  String.mk ((text.data.take 200).map (fun c => if c = '\n' then ' ' else c))

/-- The `try` body of `fetch_ollama_info`, returning the models list or
the first exception it raises: `resp.raise_for_status()` raises on HTTP
4xx/5xx, an unparseable body raises the "Invalid JSON" exception built
from a body snippet, and the extraction itself can raise on unexpected
shapes. -/
def fetch_try (base_url : String) (http : HttpOut) : Except String (List Jv) :=
  match http with
  | .raise m => .error m
  | .resp st body text =>
    if 400 ≤ st ∧ st < 600 then
      .error ("HTTP error " ++ toString st ++ " for url: " ++ base_url ++ "/api/tags")
    else
      match body with
      | none =>
        .error ("Invalid JSON from " ++ base_url ++ "/api/tags: " ++ snippet text
          ++ " (status=" ++ toString st ++ ")")
      | some tags => extract_models tags

/-- A value of the normalized result dict. -/
inductive RVal
  | str (s : String)
  | noneV
  | jlist (l : List Jv)

/-- Python dict assignment `d[k] = v`: updates the existing entry in
place (keeping insertion order), appending when the key is new. -/
def dictSet (d : List (String × RVal)) (k : String) (v : RVal) :
    List (String × RVal) :=
  if d.any (fun f => f.1 = k) then
    d.map (fun f => if f.1 = k then (k, v) else f)
  else d ++ [(k, v)]

/-- `d.get(k)` on the result dict. -/
def dictGet (d : List (String × RVal)) (k : String) : Option RVal :=
  (d.find? (fun f => f.1 = k)).map Prod.snd

/-- `host.rstrip("/")`. -/
def pyRstripSlash (s : String) : String :=
  String.mk (s.data.reverse.dropWhile (fun c => c = '/')).reverse

/-- `fetch_ollama_info(host, timeout)`:

    if host.startswith("http://") or host.startswith("https://"):
        base_url = host.rstrip("/")
    else:
        base_url = f"http://{host.rstrip('/') }"
    result = {"host": host, "status": "ok", "models": [],
              "runtime": "unknown", "error": None}
    try:
        ... fetch, raise_for_status, parse, extract ...
        result["models"] = ...
    except Exception as e:
        result["status"] = "error"
        result["error"] = str(e)
    return result

`http` is the transport's behavior as a function of the timeout. -/
def fetch_ollama_info (host : String) (timeout : ℚ) (http : ℚ → HttpOut) :
    List (String × RVal) :=
  let base_url :=
    if host.startsWith "http://" || host.startsWith "https://" then
      pyRstripSlash host
    else "http://" ++ pyRstripSlash host
  let result : List (String × RVal) :=
    [("host", .str host), ("status", .str "ok"), ("models", .jlist []),
      ("runtime", .str "unknown"), ("error", .noneV)]
  match fetch_try base_url (http timeout) with
  | .ok ms => dictSet result "models" (.jlist ms)
  | .error e => dictSet (dictSet result "status" (.str "error")) "error" (.str e)

/-! ## Supporting lemmas -/

theorem pySplit_no_sep {sep : Char} : ∀ {xs : List Char}, sep ∉ xs → pySplit sep xs = [xs]
  | [], _ => rfl
  | c :: cs, h => by
    have hc : ¬ c = sep := fun e => h (e ▸ List.mem_cons_self c cs)
    have hcs : sep ∉ cs := fun m => h (List.mem_cons_of_mem c m)
    simp [pySplit, hc, pySplit_no_sep hcs]

theorem pySplit_append {sep : Char} {xs : List Char} (ys : List Char) (h : sep ∉ xs) :
    pySplit sep (xs ++ sep :: ys) = xs :: pySplit sep ys := by
  induction xs with
  | nil => simp [pySplit]
  | cons c cs ih =>
    have hc : ¬ c = sep := fun e => h (e ▸ List.mem_cons_self c cs)
    have hcs : sep ∉ cs := fun m => h (List.mem_cons_of_mem c m)
    simp [pySplit, hc, ih hcs]

set_option maxRecDepth 10000 in
/-- Decimal printing of an octet value round-trips through `pyIntNat`, and
the printed digits contain neither of the separator characters. -/
theorem natChars_roundTrip :
    ∀ n, n < 256 →
      (pyIntNat (natChars n) = some n ∧ '.' ∉ natChars n ∧ '-' ∉ natChars n) := by
  decide

theorem dot_not_mem_octetRange {s e : Nat} (hs : s < 256) (he : e < 256) :
    '.' ∉ octetRange s e := by
  intro hmem
  rcases List.mem_append.1 hmem with h | h
  · exact (natChars_roundTrip s hs).2.1 h
  · rcases List.mem_cons.1 h with h | h
    · exact absurd h (by decide)
    · exact (natChars_roundTrip e he).2.1 h

theorem octetMatches_octetRange {s e : Nat} (hs : s < 256) (he : e < 256) (a : Nat) :
    octetMatches (octetRange s e) a = decide (s ≤ a ∧ a ≤ e) := by
  rw [octetMatches, octetRange,
    pySplit_append (natChars e) (natChars_roundTrip s hs).2.2,
    pySplit_no_sep (natChars_roundTrip e he).2.2]
  simp [(natChars_roundTrip s hs).1, (natChars_roundTrip e he).1]

theorem pySplit_addrChars {o0 o1 o2 o3 : Nat}
    (h0 : o0 < 256) (h1 : o1 < 256) (h2 : o2 < 256) (h3 : o3 < 256) :
    pySplit '.' (addrChars o0 o1 o2 o3)
      = [natChars o0, natChars o1, natChars o2, natChars o3] := by
  rw [addrChars]
  simp only [List.cons_append, List.append_assoc]
  rw [pySplit_append _ (natChars_roundTrip o0 h0).2.1,
    pySplit_append _ (natChars_roundTrip o1 h1).2.1,
    pySplit_append _ (natChars_roundTrip o2 h2).2.1,
    pySplit_no_sep (natChars_roundTrip o3 h3).2.1]

theorem pySplit_rangeChars {s0 s1 s2 s3 e0 e1 e2 e3 : Nat}
    (hs0 : s0 < 256) (hs1 : s1 < 256) (hs2 : s2 < 256) (hs3 : s3 < 256)
    (he0 : e0 < 256) (he1 : e1 < 256) (he2 : e2 < 256) (he3 : e3 < 256) :
    pySplit '.' (rangeChars s0 s1 s2 s3 e0 e1 e2 e3)
      = [octetRange s0 e0, octetRange s1 e1, octetRange s2 e2, octetRange s3 e3] := by
  rw [rangeChars,
    pySplit_append _ (dot_not_mem_octetRange hs0 he0),
    pySplit_append _ (dot_not_mem_octetRange hs1 he1),
    pySplit_append _ (dot_not_mem_octetRange hs2 he2),
    pySplit_no_sep (dot_not_mem_octetRange hs3 he3)]

/-! ## Claim theorems (Target Expander) -/

/-- Claim C4: for every valid range specification given as two dotted-quad
endpoint addresses, `to_nmap_range` emits the single compact range
expression `s0-e0.s1-e1.s2-e2.s3-e3`, and the octet-by-octet re-expansion
of that expression covers exactly the Cartesian product of the per-octet
closed intervals `[start_i, end_i]` — every address inside the product
matches, and nothing outside it does. -/
theorem expander_range_covers_product
    (s0 s1 s2 s3 e0 e1 e2 e3 : Nat)
    (hs0 : s0 < 256) (hs1 : s1 < 256) (hs2 : s2 < 256) (hs3 : s3 < 256)
    (he0 : e0 < 256) (he1 : e1 < 256) (he2 : e2 < 256) (he3 : e3 < 256) :
    to_nmap_range (addrChars s0 s1 s2 s3) (addrChars e0 e1 e2 e3)
        = some (rangeChars s0 s1 s2 s3 e0 e1 e2 e3) ∧
      ∀ a0 a1 a2 a3 : Nat,
        rangeExprMatches (rangeChars s0 s1 s2 s3 e0 e1 e2 e3) a0 a1 a2 a3 = true ↔
          ((s0 ≤ a0 ∧ a0 ≤ e0) ∧ (s1 ≤ a1 ∧ a1 ≤ e1) ∧
            (s2 ≤ a2 ∧ a2 ≤ e2) ∧ (s3 ≤ a3 ∧ a3 ≤ e3)) := by
  constructor
  · rw [to_nmap_range, pySplit_addrChars hs0 hs1 hs2 hs3,
      pySplit_addrChars he0 he1 he2 he3]
    simp [pyMapInt, (natChars_roundTrip s0 hs0).1, (natChars_roundTrip s1 hs1).1,
      (natChars_roundTrip s2 hs2).1, (natChars_roundTrip s3 hs3).1,
      (natChars_roundTrip e0 he0).1, (natChars_roundTrip e1 he1).1,
      (natChars_roundTrip e2 he2).1, (natChars_roundTrip e3 he3).1]
  · intro a0 a1 a2 a3
    rw [rangeExprMatches, pySplit_rangeChars hs0 hs1 hs2 hs3 he0 he1 he2 he3]
    simp [octetMatches_octetRange hs0 he0, octetMatches_octetRange hs1 he1,
      octetMatches_octetRange hs2 he2, octetMatches_octetRange hs3 he3,
      and_assoc]

/-- Concrete instance of Claim C4 at start 10.20.30.40, end 11.25.31.45. -/
theorem expander_range_covers_product_witness :
    (10 : Nat) < 256 ∧
      (to_nmap_range (addrChars 10 20 30 40) (addrChars 11 25 31 45)
          = some (rangeChars 10 20 30 40 11 25 31 45) ∧
        ∀ a0 a1 a2 a3 : Nat,
          rangeExprMatches (rangeChars 10 20 30 40 11 25 31 45) a0 a1 a2 a3 = true ↔
            ((10 ≤ a0 ∧ a0 ≤ 11) ∧ (20 ≤ a1 ∧ a1 ≤ 25) ∧
              (30 ≤ a2 ∧ a2 ≤ 31) ∧ (40 ≤ a3 ∧ a3 ≤ 45))) :=
  ⟨by decide,
    expander_range_covers_product 10 20 30 40 11 25 31 45
      (by decide) (by decide) (by decide) (by decide)
      (by decide) (by decide) (by decide) (by decide)⟩

theorem PendOK_mono {R : String → List Row} :
    ∀ {csv csv' : List Row} {evs : List Ev},
      PendOK R csv evs → (∀ r ∈ csv, r ∈ csv') → PendOK R csv' evs := by
  intro csv csv' evs h
  induction h generalizing csv' with
  | done => exact fun _ => .done _
  | slp _ d rest _ ih => exact fun hsub => .slp _ _ _ (ih hsub)
  | app _ r rest _ ih =>
    intro hsub
    refine .app _ _ _ (ih ?_)
    intro x hx
    rcases List.mem_append.1 hx with hx | hx
    · exact List.mem_append_left _ (hsub _ hx)
    · exact List.mem_append_right _ hx
  | mark _ t rest hrows _ ih =>
    exact fun hsub => .mark _ _ _ (fun r hr => hsub _ (hrows r hr)) (ih hsub)
  | save _ rest _ ih => exact fun hsub => .save _ _ (ih hsub)

theorem pendOK_appends_then_mark {R : String → List Row} (t : String) :
    ∀ (l : List Row) (csv : List Row), (∀ r ∈ R t, r ∈ csv ++ l) →
      PendOK R csv (l.map Ev.appendRow ++ [Ev.markMem t, Ev.saveState])
  | [], csv, h => by
    simpa using PendOK.mark csv t [Ev.saveState] (by simpa using h)
      (.save _ _ (.done _))
  | r :: l, csv, h => by
    refine PendOK.app _ _ _ (pendOK_appends_then_mark t l (csv ++ [r]) ?_)
    intro x hx
    have hx' := h x hx
    simp only [List.mem_append, List.mem_cons] at hx' ⊢
    tauto

theorem appendedRows_nil : appendedRows [] = [] := rfl

theorem appendedRows_sleep (d : Nat) (evs : List Ev) :
    appendedRows (.sleep d :: evs) = appendedRows evs := rfl

theorem appendedRows_append (a b : List Ev) :
    appendedRows (a ++ b) = appendedRows a ++ appendedRows b := by
  simp [appendedRows, List.filterMap_append]

theorem appendedRows_map_appendRow :
    ∀ l : List Row, appendedRows (l.map Ev.appendRow) = l
  | [] => rfl
  | r :: l => by
    have ih := appendedRows_map_appendRow l
    simp only [List.map_cons, appendedRows, List.filterMap_cons] at ih ⊢
    rw [ih]

theorem appendedRows_success (hosts : List (String × List Nat)) (t : String) :
    appendedRows ((rowsFor hosts).map Ev.appendRow ++ [Ev.markMem t, Ev.saveState])
      = rowsFor hosts := by
  rw [appendedRows_append, appendedRows_map_appendRow]
  simp [appendedRows]

theorem pendOK_scanLoop {R : String → List Row}
    (probe : Nat → ScanAttempt) (t : String) :
    ∀ (fuel attempt : Nat) (csv : List Row),
      (∀ r ∈ R t, r ∈ csv ++ appendedRows (scanLoop t probe attempt fuel).events) →
      PendOK R csv (scanLoop t probe attempt fuel).events
  | 0, attempt, csv, _ => by
    simpa [scanLoop] using PendOK.done (R := R) csv
  | fuel + 1, attempt, csv, h => by
    rcases hp : probe attempt with _ | hosts
    · by_cases hf : fuel = 0
      · simpa [scanLoop, hp, hf] using PendOK.done (R := R) csv
      · simp only [scanLoop, hp, if_neg hf]
        refine PendOK.slp _ _ _ (pendOK_scanLoop probe t fuel (attempt + 1) csv ?_)
        intro r hr
        have := h r hr
        simpa [scanLoop, hp, if_neg hf, appendedRows_sleep] using this
    · simp only [scanLoop, hp]
      refine pendOK_appends_then_mark t (rowsFor hosts) csv ?_
      intro r hr
      have := h r hr
      simpa [scanLoop, hp, appendedRows_success] using this

theorem goodCfg_step {R : String → List Row} {c c' : SConfig}
    (hg : GoodCfg R c) (hs : SchedStep c c') : GoodCfg R c' := by
  rcases hs with ⟨w, pre, e, rest, post⟩
  obtain ⟨hmem, hdisk, hpend⟩ := hg
  have hsel : PendOK R w.csv (e :: rest) := hpend _ (by simp)
  have hother : ∀ evs, evs ∈ pre ∨ evs ∈ post → PendOK R w.csv evs := by
    intro evs hevs
    refine hpend _ ?_
    rcases hevs with hevs | hevs
    · exact List.mem_append_left _ hevs
    · exact List.mem_append_right _ (List.mem_cons_of_mem _ hevs)
  have hmemb : ∀ evs : List Ev, evs ∈ pre ++ rest :: post →
      evs ∈ pre ∨ evs = rest ∨ evs ∈ post := by
    intro evs hevs
    rcases List.mem_append.1 hevs with hevs | hevs
    · exact Or.inl hevs
    · rcases List.mem_cons.1 hevs with hevs | hevs
      · exact Or.inr (Or.inl hevs)
      · exact Or.inr (Or.inr hevs)
  cases e with
  | sleep d =>
    cases hsel with
    | slp _ _ _ hrest =>
      refine ⟨hmem, hdisk, ?_⟩
      intro evs hevs
      rcases hmemb evs hevs with hevs | hevs | hevs
      · exact hother _ (Or.inl hevs)
      · exact hevs ▸ hrest
      · exact hother _ (Or.inr hevs)
  | appendRow r =>
    cases hsel with
    | app _ _ _ hrest =>
      have hsub : ∀ x ∈ w.csv, x ∈ w.csv ++ [r] := fun x hx =>
        List.mem_append_left _ hx
      refine ⟨?_, ?_, ?_⟩
      · exact fun t ht x hx => hsub _ (hmem t ht x hx)
      · exact fun t ht x hx => hsub _ (hdisk t ht x hx)
      · intro evs hevs
        rcases hmemb evs hevs with hevs | hevs | hevs
        · exact PendOK_mono (hother _ (Or.inl hevs)) hsub
        · exact hevs ▸ hrest
        · exact PendOK_mono (hother _ (Or.inr hevs)) hsub
  | markMem t =>
    cases hsel with
    | mark _ _ _ hrows hrest =>
      refine ⟨?_, hdisk, ?_⟩
      · intro t' ht'
        rcases List.mem_append.1 ht' with ht' | ht'
        · exact hmem t' ht'
        · rcases List.mem_cons.1 ht' with ht' | ht'
          · subst ht'
            exact fun r hr => hrows r hr
          · exact absurd ht' (List.not_mem_nil _)
      · intro evs hevs
        rcases hmemb evs hevs with hevs | hevs | hevs
        · exact hother _ (Or.inl hevs)
        · exact hevs ▸ hrest
        · exact hother _ (Or.inr hevs)
  | saveState =>
    cases hsel with
    | save _ _ hrest =>
      refine ⟨hmem, hmem, ?_⟩
      intro evs hevs
      rcases hmemb evs hevs with hevs | hevs | hevs
      · exact hother _ (Or.inl hevs)
      · exact hevs ▸ hrest
      · exact hother _ (Or.inr hevs)

theorem goodCfg_reach {R : String → List Row} {c c' : SConfig}
    (hg : GoodCfg R c) (h : SchedReach c c') : GoodCfg R c' := by
  induction h with
  | refl => exact hg
  | tail _ hstep ih => exact goodCfg_step ih hstep

theorem goodCfg_init (probe : String → Nat → ScanAttempt) (targets S0 : List String)
    (csv0 : List Row)
    (hS : ∀ t ∈ S0, ∀ r ∈ rowsOfTarget probe t, r ∈ csv0) :
    GoodCfg (rowsOfTarget probe) (initConfig probe targets S0 csv0) := by
  refine ⟨hS, hS, ?_⟩
  intro evs hevs
  simp only [initConfig, List.mem_map] at hevs
  obtain ⟨t, _, rfl⟩ := hevs
  refine pendOK_scanLoop (probe t) t RETRIES 0 csv0 ?_
  intro r hr
  exact List.mem_append_right _ hr

theorem appendRow_mem_scanLoop_iff (t : String) (probe : Nat → ScanAttempt) (r : Row) :
    ∀ (fuel attempt : Nat),
      (Ev.appendRow r ∈ (scanLoop t probe attempt fuel).events ↔
        ∃ k hosts, k < fuel ∧ (∀ j < k, probe (attempt + j) = .raises) ∧
          probe (attempt + k) = .ok hosts ∧ r ∈ rowsFor hosts)
  | 0, attempt => by
    simp [scanLoop]
  | fuel + 1, attempt => by
    rcases hp : probe attempt with _ | hosts
    · by_cases hf : fuel = 0
      · subst hf
        simp only [scanLoop, hp, if_pos rfl]
        constructor
        · intro hmem
          exact absurd hmem (List.not_mem_nil _)
        · rintro ⟨k, hosts', hk, -, hok, -⟩
          interval_cases k
          rw [Nat.add_zero] at hok
          exact absurd (hp.symm.trans hok) (by simp)
      · simp only [scanLoop, hp, if_neg hf]
        have ih := appendRow_mem_scanLoop_iff t probe r fuel (attempt + 1)
        constructor
        · intro hmem
          have hmem' : Ev.appendRow r ∈ (scanLoop t probe (attempt + 1) fuel).events := by
            simpa using hmem
          obtain ⟨k, hosts', hk, hbl, hok, hr⟩ := ih.1 hmem'
          refine ⟨k + 1, hosts', by omega, ?_, ?_, hr⟩
          · intro j hj
            match j, hj with
            | 0, _ => simpa using hp
            | j' + 1, hj =>
              have he : attempt + (j' + 1) = attempt + 1 + j' := by omega
              rw [he]
              exact hbl j' (by omega)
          · have he : attempt + (k + 1) = attempt + 1 + k := by omega
            rw [he]
            exact hok
        · rintro ⟨k, hosts', hk, hbl, hok, hr⟩
          match k, hk with
          | 0, _ =>
            rw [Nat.add_zero] at hok
            exact absurd (hp.symm.trans hok) (by simp)
          | k' + 1, hk =>
            have hmem' : Ev.appendRow r ∈ (scanLoop t probe (attempt + 1) fuel).events := by
              refine ih.2 ⟨k', hosts', by omega, ?_, ?_, hr⟩
              · intro j hj
                have he : attempt + 1 + j = attempt + (j + 1) := by omega
                rw [he]
                exact hbl (j + 1) (by omega)
              · have he : attempt + 1 + k' = attempt + (k' + 1) := by omega
                rw [he]
                exact hok
            simpa using hmem'
    · simp only [scanLoop, hp]
      constructor
      · intro hmem
        rcases List.mem_append.1 hmem with hmem | hmem
        · obtain ⟨x, hx, he⟩ := List.mem_map.1 hmem
          cases he
          exact ⟨0, hosts, Nat.succ_pos _, by omega, by simpa using hp, hx⟩
        · rcases List.mem_cons.1 hmem with hmem | hmem
          · exact absurd hmem (by simp)
          · rcases List.mem_cons.1 hmem with hmem | hmem
            · exact absurd hmem (by simp)
            · exact absurd hmem (List.not_mem_nil _)
      · rintro ⟨k, hosts', hk, hbl, hok, hr⟩
        match k, hk with
        | 0, _ =>
          rw [Nat.add_zero] at hok
          rw [hp] at hok
          cases hok
          exact List.mem_append_left _ (List.mem_map_of_mem _ hr)
        | k' + 1, hk =>
          have := hbl 0 (Nat.succ_pos _)
          rw [Nat.add_zero, hp] at this
          exact absurd this (by simp)

theorem mem_rowsFor {r : Row} {hosts : List (String × List Nat)} :
    r ∈ rowsFor hosts ↔
      ∃ h ∈ hosts, ¬(openPortStrs h.2).isEmpty ∧ r = hostRow h := by
  simp only [rowsFor, List.mem_map, List.mem_filter, Bool.not_eq_true',
    Bool.not_eq_false]
  constructor
  · rintro ⟨h, ⟨hmem, hne⟩, rfl⟩
    exact ⟨h, hmem, by simp [hne], rfl⟩
  · rintro ⟨h, hmem, hne, rfl⟩
    exact ⟨h, ⟨hmem, by simpa using hne⟩, rfl⟩

/-! ## Claim theorems (Retry Policy) -/

/-- Claim C2: a probe that raises a transient error on every attempt is
invoked exactly `RETRIES` (= 3) times, the wrapper sleeps the fixed
backoff of 2 time units between consecutive attempts (`RETRIES - 1`
sleeps, and the trace consists of those sleeps only: nothing is appended
or marked), and exactly one `failure` outcome is returned to the caller.
The model returns a plain `ScanRes` — both arms of the `except` handler
are embedded — so no exception from exhausted retries escapes. -/
theorem retry_bound_always_failing (t : String) (probe : Nat → ScanAttempt)
    (h : ∀ k, probe k = .raises) :
    (scan_target t probe).invocations = RETRIES ∧
      (scan_target t probe).outcome = .failure ∧
      (scan_target t probe).sleeps = RETRIES - 1 ∧
      (scan_target t probe).events = List.replicate (RETRIES - 1) (.sleep 2) := by
  simp [scan_target, scanLoop, RETRIES, h, List.replicate]

/-- Concrete instance of Claim C2: the always-raising probe on one target. -/
theorem retry_bound_always_failing_witness :
    (∀ k : Nat, (fun _ : Nat => ScanAttempt.raises) k = ScanAttempt.raises) ∧
      ((scan_target "10-10.0-0.0-0.1-254" (fun _ => .raises)).invocations = RETRIES ∧
        (scan_target "10-10.0-0.0-0.1-254" (fun _ => .raises)).outcome = .failure ∧
        (scan_target "10-10.0-0.0-0.1-254" (fun _ => .raises)).sleeps = RETRIES - 1 ∧
        (scan_target "10-10.0-0.0-0.1-254" (fun _ => .raises)).events
          = List.replicate (RETRIES - 1) (.sleep 2)) :=
  ⟨fun _ => rfl,
    retry_bound_always_failing "10-10.0-0.0-0.1-254" (fun _ => .raises) (fun _ => rfl)⟩

/-! ## Claim theorems (Progress Reporter) -/

/-- Claim C5: for every completion event with counters (completed, total)
— whose `total` is always positive in the program, because a completion
implies at least one submitted unit — and elapsed time `e`, the reported
remaining time equals `e * total / completed - e` when `completed > 0`
and `0` when `completed = 0`; in particular for completed = 5,
total = 20, elapsed = 10.0 the reported values are percentage 25.00 (the
exact rational 25, rendered to two decimal places), remaining 30.0
seconds, and `int(remaining)` = 30. -/
theorem progress_eta_formula (completed total : Nat) (elapsed : ℚ)
    (htot : 0 < total) :
    ((0 < completed →
        print_progress completed total elapsed
          = some ((completed : ℚ) / (total : ℚ) * 100,
              elapsed * (total : ℚ) / (completed : ℚ) - elapsed,
              pyTrunc (elapsed * (total : ℚ) / (completed : ℚ) - elapsed))) ∧
      (completed = 0 →
        print_progress completed total elapsed = some (0, 0, 0))) ∧
    print_progress 5 20 10 = some (25, 30, 30) := by
  refine ⟨⟨?_, ?_⟩, by norm_num [print_progress, pyDiv, pyTrunc]⟩
  · intro hc
    have ht0 : (total : ℚ) ≠ 0 := Nat.cast_ne_zero.2 htot.ne'
    have hc0 : (completed : ℚ) ≠ 0 := Nat.cast_ne_zero.2 hc.ne'
    have hfrac : (completed : ℚ) / (total : ℚ) ≠ 0 := div_ne_zero hc0 ht0
    simp [print_progress, pyDiv, htot, hc, ht0, hc0, hfrac, div_div_eq_mul_div]
  · rintro rfl
    simp [print_progress, pyDiv, htot, htot.ne', pyTrunc]

/-- Concrete instance of Claim C5 at completed = 5, total = 20,
elapsed = 10.0. -/
theorem progress_eta_formula_witness :
    (0 : Nat) < 20 ∧ (0 : Nat) < 5 ∧
      print_progress 5 20 10
        = some ((((5 : Nat) : ℚ)) / (((20 : Nat) : ℚ)) * 100,
            10 * (((20 : Nat) : ℚ)) / (((5 : Nat) : ℚ)) - 10,
            pyTrunc (10 * (((20 : Nat) : ℚ)) / (((5 : Nat) : ℚ)) - 10)) ∧
      print_progress 5 20 10 = some (25, 30, 30) :=
  ⟨by decide, by decide,
    (progress_eta_formula 5 20 10 (by decide)).1.1 (by decide),
    (progress_eta_formula 5 20 10 (by decide)).2⟩

/-- Claim C10 counterexample: at completed = 1, total = 0 (and elapsed 37)
the ETA branch of `print_progress` evaluates `completed / total` with a
zero divisor, so the function raises `ZeroDivisionError` (`none`): the
explicit guard protects only the percentage, not the ETA estimate, and
division by zero does occur for some (completed, total) input. -/
theorem print_progress_divzero_counterexample : print_progress 1 0 37 = none := rfl

/-- Claim C10 (amended): `update_progress` computes both the percentage
and the progress-bar fill as 0 for total = 0 via explicit guards and is
division-safe on every input; `print_progress` guards its percentage the
same way, but its ETA branch divides by `completed / total`, so it is
division-safe exactly on inputs with total > 0 or completed = 0 — which
includes every input reachable in the program, since a completion event
implies total > 0. -/
theorem progress_division_safety (checked total found completed total2 : Nat)
    (elapsed : ℚ) :
    (update_progress checked total found).isSome ∧
      (0 < total2 ∨ completed = 0 →
        (print_progress completed total2 elapsed).isSome) := by
  constructor
  · rcases Nat.eq_zero_or_pos total with h | h
    · subst h
      simp [update_progress, pyDiv]
    · have ht0 : (total : ℚ) ≠ 0 := Nat.cast_ne_zero.2 h.ne'
      simp [update_progress, pyDiv, h, ht0]
  · rintro (h | rfl)
    · rcases Nat.eq_zero_or_pos completed with hc | hc
      · subst hc
        simp [print_progress, pyDiv, h, h.ne', pyTrunc]
      · have ht0 : (total2 : ℚ) ≠ 0 := Nat.cast_ne_zero.2 h.ne'
        have hc0 : (completed : ℚ) ≠ 0 := Nat.cast_ne_zero.2 hc.ne'
        have hfrac : (completed : ℚ) / (total2 : ℚ) ≠ 0 := div_ne_zero hc0 ht0
        simp [print_progress, pyDiv, h, hc, ht0, hfrac]
    · rcases Nat.eq_zero_or_pos total2 with h | h
      · subst h
        simp [print_progress, pyDiv]
      · have ht0 : (total2 : ℚ) ≠ 0 := Nat.cast_ne_zero.2 h.ne'
        simp [print_progress, pyDiv, h, ht0]

/-- Concrete instance of the amended Claim C10: `update_progress` at
(3, 0, 1) and `print_progress` at (5, 20, 10.0) both return a rendered
value. -/
theorem progress_division_safety_witness :
    ((0 : Nat) < 20 ∨ (5 : Nat) = 0) ∧
      (print_progress 5 20 10).isSome ∧
      (update_progress 3 0 1).isSome :=
  ⟨Or.inl (by decide),
    (progress_division_safety 3 0 1 5 20 10).2 (Or.inl (by decide)),
    (progress_division_safety 3 0 1 5 20 10).1⟩

theorem checkerStep_checkedSet (probe : String → String → Bool) (n : Nat)
    (st : CLoopSt) (r : String × String) :
    (checkerStep probe n st r).checkedSet = st.checkedSet ++ [keyOf r] := by
  by_cases hp : probe r.1 r.2 <;>
    by_cases hs : (st.checkedCount + 1) % 10 = 0 ∨ st.checkedCount + 1 = n <;>
    simp [checkerStep, hp, hs]

theorem checkerStep_foundList (probe : String → String → Bool) (n : Nat)
    (st : CLoopSt) (r : String × String) :
    (checkerStep probe n st r).foundList
      = st.foundList ++ (if probe r.1 r.2 then [r] else []) := by
  by_cases hp : probe r.1 r.2 <;>
    by_cases hs : (st.checkedCount + 1) % 10 = 0 ∨ st.checkedCount + 1 = n <;>
    simp [checkerStep, hp, hs]

theorem checkerStep_savedDocs (probe : String → String → Bool) (n : Nat)
    (st : CLoopSt) (r : String × String) :
    (checkerStep probe n st r).savedDocs = st.savedDocs ∨
      (checkerStep probe n st r).savedDocs
        = st.savedDocs ++ [⟨st.checkedSet ++ [keyOf r],
            st.foundList ++ (if probe r.1 r.2 then [r] else [])⟩] := by
  by_cases hp : probe r.1 r.2 <;>
    by_cases hs : (st.checkedCount + 1) % 10 = 0 ∨ st.checkedCount + 1 = n <;>
    simp [checkerStep, hp, hs]

theorem checkerLoop_none (probe : String → String → Bool) (n : Nat) :
    ∀ (order : List (String × String)) (st : CLoopSt),
      (checkerLoop probe n order none st).2 = false ∧
      (checkerLoop probe n order none st).1.checkedSet
        = st.checkedSet ++ order.map keyOf ∧
      (checkerLoop probe n order none st).1.foundList
        = st.foundList ++ order.filter (fun r => probe r.1 r.2)
  | [], st => by simp [checkerLoop]
  | r :: rest, st => by
    have ih := checkerLoop_none probe n rest (checkerStep probe n st r)
    obtain ⟨ih1, ih2, ih3⟩ := ih
    refine ⟨?_, ?_, ?_⟩
    · simpa [checkerLoop] using ih1
    · rw [show checkerLoop probe n (r :: rest) none st
          = checkerLoop probe n rest none (checkerStep probe n st r) from rfl,
        ih2, checkerStep_checkedSet]
      simp
    · rw [show checkerLoop probe n (r :: rest) none st
          = checkerLoop probe n rest none (checkerStep probe n st r) from rfl,
        ih3, checkerStep_foundList, List.filter_cons]
      by_cases hp : probe r.1 r.2 <;> simp [hp]

theorem checkerLoop_interrupted (probe : String → String → Bool) (n : Nat) :
    ∀ (order : List (String × String)) (k : Nat) (st : CLoopSt),
      k < order.length → (checkerLoop probe n order (some k) st).2 = true
  | [], k, _, hk => absurd hk (by simp)
  | r :: rest, 0, st, _ => by simp [checkerLoop]
  | r :: rest, k + 1, st, hk => by
    have ih := checkerLoop_interrupted probe n rest k (checkerStep probe n st r)
      (by simpa using hk)
    simpa [checkerLoop] using ih

theorem checkerLoop_savedDocs (probe : String → String → Bool) (n : Nat)
    (c0 : List String) (f0 : List (String × String)) :
    ∀ (order : List (String × String)) (intr : Option Nat) (st : CLoopSt)
      (pre0 : List (String × String)),
      st.checkedSet = c0 ++ pre0.map keyOf →
      st.foundList = f0 ++ pre0.filter (fun r => probe r.1 r.2) →
      (∀ d ∈ st.savedDocs, DocGood probe c0 f0 (pre0 ++ order) d) →
      (∀ d ∈ (checkerLoop probe n order intr st).1.savedDocs,
          DocGood probe c0 f0 (pre0 ++ order) d) ∧
        DocGood probe c0 f0 (pre0 ++ order)
          ⟨(checkerLoop probe n order intr st).1.checkedSet,
            (checkerLoop probe n order intr st).1.foundList⟩
  | [], intr, st, pre0, hc, hf, hdocs => by
    have hend : checkerLoop probe n [] intr st = (st, false) := by
      simp [checkerLoop]
    rw [hend]
    exact ⟨hdocs, ⟨pre0, [], by simp, by simpa using hc, by simpa using hf⟩⟩
  | r :: rest, intr, st, pre0, hc, hf, hdocs => by
    have hstep : ∀ intr' : Option Nat,
        st.checkedSet = c0 ++ pre0.map keyOf →
        (∀ d ∈ (checkerLoop probe n rest intr' (checkerStep probe n st r)).1.savedDocs,
            DocGood probe c0 f0 (pre0 ++ r :: rest) d) ∧
          DocGood probe c0 f0 (pre0 ++ r :: rest)
            ⟨(checkerLoop probe n rest intr' (checkerStep probe n st r)).1.checkedSet,
              (checkerLoop probe n rest intr' (checkerStep probe n st r)).1.foundList⟩ := by
      intro intr' _
      have hassoc : (pre0 ++ [r]) ++ rest = pre0 ++ r :: rest := by simp
      have hc' : (checkerStep probe n st r).checkedSet
          = c0 ++ (pre0 ++ [r]).map keyOf := by
        rw [checkerStep_checkedSet, hc]
        simp
      have hf' : (checkerStep probe n st r).foundList
          = f0 ++ (pre0 ++ [r]).filter (fun x => probe x.1 x.2) := by
        rw [checkerStep_foundList, hf, List.filter_append]
        by_cases hp : probe r.1 r.2 <;> simp [hp]
      have hdocs' : ∀ d ∈ (checkerStep probe n st r).savedDocs,
          DocGood probe c0 f0 ((pre0 ++ [r]) ++ rest) d := by
        intro d hd
        rcases checkerStep_savedDocs probe n st r with he | he
        · rw [he] at hd
          rw [hassoc]
          exact hdocs d hd
        · rw [he] at hd
          rcases List.mem_append.1 hd with hd | hd
          · rw [hassoc]
            exact hdocs d hd
          · rcases List.mem_cons.1 hd with hd | hd
            · subst hd
              refine ⟨pre0 ++ [r], rest, rfl, ?_, ?_⟩
              · rw [hc]
                simp
              · rw [hf, List.filter_append]
                by_cases hp : probe r.1 r.2 <;> simp [hp]
            · exact absurd hd (List.not_mem_nil _)
      have ih := checkerLoop_savedDocs probe n c0 f0 rest intr'
        (checkerStep probe n st r) (pre0 ++ [r]) hc' hf' hdocs'
      rw [hassoc] at ih
      exact ih
    match intr with
    | some 0 =>
      have hend : checkerLoop probe n (r :: rest) (some 0) st = (st, true) := by
        simp [checkerLoop]
      rw [hend]
      exact ⟨hdocs, ⟨pre0, r :: rest, rfl, by simpa using hc, by simpa using hf⟩⟩
    | none =>
      have := hstep none hc
      simpa [checkerLoop] using this
    | some (k + 1) =>
      have := hstep (some k) hc
      simpa [checkerLoop] using this

theorem scanLoop_success_events (t : String) (probe : Nat → ScanAttempt) :
    ∀ (fuel attempt : Nat),
      (scanLoop t probe attempt fuel).outcome ≠ .failure →
      ∃ (s : Nat) (rows : List Row), (scanLoop t probe attempt fuel).events
        = List.replicate s (Ev.sleep 2) ++ List.map Ev.appendRow rows
          ++ [Ev.markMem t, Ev.saveState]
  | 0, attempt, h => absurd (by simp [scanLoop]) h
  | fuel + 1, attempt, h => by
    rcases hp : probe attempt with _ | hosts
    · by_cases hf : fuel = 0
      · rw [scanLoop] at h
        simp [hp, hf] at h
      · rw [scanLoop] at h ⊢
        simp only [hp, if_neg hf] at h ⊢
        obtain ⟨s, rows, he⟩ := scanLoop_success_events t probe fuel (attempt + 1) h
        exact ⟨s + 1, rows, by simp [he, List.replicate_succ]⟩
    · exact ⟨0, rowsFor hosts, by simp [scanLoop, hp]⟩

theorem applyEvs_append (w : SWorld) (a b : List Ev) :
    applyEvs w (a ++ b) = applyEvs (applyEvs w a) b := by
  simp [applyEvs, List.foldl_append]

theorem applyEvs_replicate_sleep (w : SWorld) (s d : Nat) :
    applyEvs w (List.replicate s (Ev.sleep d)) = w := by
  induction s generalizing w with
  | zero => rfl
  | succ s ih => simp [List.replicate_succ, applyEvs, applyEv] at ih ⊢; exact ih w

theorem applyEvs_appendRows (w : SWorld) (rows : List Row) :
    applyEvs w (rows.map Ev.appendRow)
      = ⟨w.csv ++ rows, w.memState, w.diskState⟩ := by
  induction rows generalizing w with
  | nil => simp [applyEvs]
  | cons r rows ih =>
    simp only [List.map_cons, applyEvs, List.foldl_cons, applyEv] at ih ⊢
    rw [ih]
    simp

theorem applyEvs_success_shape (w : SWorld) (s : Nat) (rows : List Row) (t : String) :
    applyEvs w (List.replicate s (Ev.sleep 2) ++ rows.map Ev.appendRow
        ++ [Ev.markMem t, Ev.saveState])
      = ⟨w.csv ++ rows, w.memState ++ [t], w.memState ++ [t]⟩ := by
  rw [applyEvs_append, applyEvs_append, applyEvs_replicate_sleep, applyEvs_appendRows]
  rfl

theorem fold_scan_success (probe : String → Nat → ScanAttempt) :
    ∀ (l : List String) (sw : SWorld),
      (∀ t ∈ l, (scan_target t (probe t)).outcome ≠ .failure) →
      sw.diskState = sw.memState →
      ∃ extra,
        l.foldl (fun acc t => applyEvs acc (scan_target t (probe t)).events) sw
          = ⟨sw.csv ++ extra, sw.memState ++ l, sw.memState ++ l⟩
  | [], sw, _, hdm => ⟨[], by obtain ⟨c, m, d⟩ := sw; simp_all⟩
  | t :: l, sw, hsucc, hdm => by
    obtain ⟨s, rows, he⟩ := scanLoop_success_events t (probe t) RETRIES 0
      (hsucc t (List.mem_cons_self t l))
    have he' : (scan_target t (probe t)).events
        = List.replicate s (Ev.sleep 2) ++ List.map Ev.appendRow rows
          ++ [Ev.markMem t, Ev.saveState] := he
    have h1 : applyEvs sw (scan_target t (probe t)).events
        = ⟨sw.csv ++ rows, sw.memState ++ [t], sw.memState ++ [t]⟩ := by
      rw [he', applyEvs_success_shape]
    obtain ⟨extra, hrest⟩ := fold_scan_success probe l
      ⟨sw.csv ++ rows, sw.memState ++ [t], sw.memState ++ [t]⟩
      (fun t' ht' => hsucc t' (List.mem_cons_of_mem _ ht')) rfl
    refine ⟨rows ++ extra, ?_⟩
    simp only [List.foldl_cons, h1, hrest]
    simp

theorem scanner_rerun_zero (probe : String → Nat → ScanAttempt)
    (targets S0 : List String) (csv0 : List Row) (orig : Option ScannerStateFile)
    (hload : scanner_load_state orig = .ok S0)
    (hsucc : ∀ t ∈ targets, (scan_target t (probe t)).outcome ≠ .failure) :
    ∃ S1,
      scanner_load_state (scannerRunCore probe targets S0 csv0 orig).world.stateFile
          = .ok S1 ∧
        (scannerRunCore probe targets S1
            ((scannerRunCore probe targets S0 csv0 orig).world.csvFile.getD [])
            (scannerRunCore probe targets S0 csv0 orig).world.stateFile).invocations
          = 0 ∧
        (scannerRunCore probe targets S1
            ((scannerRunCore probe targets S0 csv0 orig).world.csvFile.getD [])
            (scannerRunCore probe targets S0 csv0 orig).world.stateFile).world.csvFile
          = (scannerRunCore probe targets S0 csv0 orig).world.csvFile := by
  by_cases hflt : targets.filter (fun t => !decide (t ∈ S0)) = []
  · refine ⟨S0, ?_, ?_, ?_⟩
    · simp only [scannerRunCore, hflt, List.foldl_nil, if_pos rfl]
      exact hload
    · simp only [scannerRunCore, hflt, List.foldl_nil, List.map_nil, List.sum_nil,
        if_pos rfl, Option.getD_some]
    · simp only [scannerRunCore, hflt, List.foldl_nil, if_pos rfl, Option.getD_some]
  · have hsucc' : ∀ t ∈ targets.filter (fun t => !decide (t ∈ S0)),
        (scan_target t (probe t)).outcome ≠ .failure :=
      fun t ht => hsucc t (List.mem_of_mem_filter ht)
    obtain ⟨extra, hfold⟩ := fold_scan_success probe
      (targets.filter (fun t => !decide (t ∈ S0))) ⟨csv0, S0, S0⟩ hsucc' rfl
    have hne : ¬(S0 ++ targets.filter (fun t => !decide (t ∈ S0)) = S0) := by
      intro he
      have hlen := congrArg List.length he
      rw [List.length_append] at hlen
      have hz : (targets.filter (fun t => !decide (t ∈ S0))).length = 0 := by omega
      exact hflt (List.eq_nil_of_length_eq_zero hz)
    have hfil2 : targets.filter
        (fun t => !decide (t ∈ S0 ++ targets.filter (fun t => !decide (t ∈ S0)))) = [] := by
      rw [List.filter_eq_nil_iff]
      intro t ht
      simp only [Bool.not_eq_true', decide_eq_false_iff_not, not_not]
      by_cases hmem : t ∈ S0
      · exact List.mem_append_left _ hmem
      · refine List.mem_append_right _ ?_
        rw [List.mem_filter]
        exact ⟨ht, by simp [hmem]⟩
    refine ⟨S0 ++ targets.filter (fun t => !decide (t ∈ S0)), ?_, ?_, ?_⟩
    · simp only [scannerRunCore, hfold, if_neg hne]
      rfl
    · simp only [scannerRunCore, hfold, if_neg hne, hfil2, List.map_nil,
        List.sum_nil]
    · simp only [scannerRunCore, hfold, if_neg hne, hfil2, Option.getD_some,
        List.foldl_nil]

theorem checker_rerun_zero (probe : String → String → Bool)
    (order order2 : List (String × String)) (intr2 : Option Nat) (w : CWorld)
    (rows : List (String × String)) (hcsv : w.nmapCsv = some rows)
    (hperm : order.Perm
      (hostsToCheck (loadResultDoc (load_state w.stateFile)).checked rows)) :
    (checker_main probe order2 intr2 (checker_main probe order none w).world).invocations
        = 0 ∧
      (checker_main probe order2 intr2
          (checker_main probe order none w).world).world.ollamaCsv
        = (checker_main probe order none w).world.ollamaCsv := by
  by_cases hemp :
      (hostsToCheck (loadResultDoc (load_state w.stateFile)).checked rows).isEmpty
  · by_cases hfnd : (loadResultDoc (load_state w.stateFile)).found.isEmpty
    · constructor <;> simp [checker_main, hcsv, hemp, hfnd]
    · constructor <;> simp [checker_main, hcsv, hemp, hfnd]
  · obtain ⟨doc0, hdoc0⟩ : ∃ d, loadResultDoc (load_state w.stateFile) = d := ⟨_, rfl⟩
    rw [hdoc0] at hperm hemp
    obtain ⟨hflag, hcs, hfl⟩ := checkerLoop_none probe
      (hostsToCheck doc0.checked rows).length order
      ⟨doc0.checked, doc0.found, doc0.checked.length, doc0.found.length, []⟩
    have hsub : ∀ r ∈ rows, keyOf r ∈ doc0.checked ++ order.map keyOf := by
      intro r hr
      by_cases hk : keyOf r ∈ doc0.checked
      · exact List.mem_append_left _ hk
      · refine List.mem_append_right _ ?_
        refine List.mem_map_of_mem keyOf ?_
        refine (hperm.mem_iff).2 ?_
        rw [hostsToCheck, List.mem_filter]
        exact ⟨hr, by simp [hk]⟩
    have hemp2 : (hostsToCheck (doc0.checked ++ order.map keyOf) rows).isEmpty := by
      rw [List.isEmpty_iff, hostsToCheck, List.filter_eq_nil_iff]
      intro r hr
      simp only [Bool.not_eq_true', decide_eq_false_iff_not, not_not]
      exact hsub r hr
    have hload2 : ∀ d, loadResultDoc (load_state (some (StateFileData.valid d))) = d :=
      fun _ => rfl
    by_cases hfnd : (doc0.found ++ order.filter (fun r => probe r.1 r.2)).isEmpty
    · constructor <;>
        simp [checker_main, hdoc0, hcsv, hemp, hflag, hcs, hfl, hload2, hemp2, hfnd]
    · constructor <;>
        simp [checker_main, hdoc0, hcsv, hemp, hflag, hcs, hfl, hload2, hemp2, hfnd]

/-! ## Claim theorems (State Store) -/

/-- Claim C6 counterexample: when the checkpoint file exists but is
corrupt, `load_state` does not fail with a `StateCorrupt` error — it
returns the empty state, silently discarding prior progress, exactly the
behavior the claim rules out. -/
theorem load_state_corrupt_counterexample :
    load_state (some .corrupt) = .ok emptyStateDoc ∧
      load_state (some .corrupt) ≠ .raises := ⟨rfl, by simp [load_state]⟩

/-- Claim C6 (amended): `load_state` returns the empty Checkpoint State,
raising nothing, when no prior checkpoint file exists — but when the file
exists and is corrupt it also returns the empty state (silently
discarding prior progress) instead of failing with a `StateCorrupt`
error.  The scanner's module-level load returns the empty completed list
when its file is absent and propagates the raw parse error (crashing the
process) when the file is corrupt; neither script produces a dedicated
`StateCorrupt` failure. -/
theorem state_load_behavior :
    load_state none = .ok emptyStateDoc ∧
      (∀ doc, load_state (some (.valid doc)) = .ok doc) ∧
      load_state (some .corrupt) = .ok emptyStateDoc ∧
      scanner_load_state none = .ok [] ∧
      (∀ l, scanner_load_state (some (.valid l)) = .ok l) ∧
      scanner_load_state (some .corrupt) = .raises :=
  ⟨rfl, fun _ => rfl, rfl, rfl, fun _ => rfl, rfl⟩

/-! ## Claim theorems (idempotent resume) -/

/-- Claim C3: running the pipeline to completion — a run after which every
unit's key is marked complete; for the scanner this means every target's
probe succeeded within its retry budget (failed targets are deliberately
left unmarked for retry), while the checker marks every processed unit —
and then running it again with the same input and the persisted
Checkpoint State dispatches zero new probe invocations (every unit whose
key is already marked complete is filtered out before scheduling) and
leaves the Result Sink's contents byte-for-byte unchanged (the checker
rewrites `ollama.csv` from the same persisted `found` list, producing
identical contents). -/
theorem idempotent_resume :
    (∀ (probe : String → Nat → ScanAttempt) (targets S0 : List String)
        (csv0 : List Row) (orig : Option ScannerStateFile),
        scanner_load_state orig = .ok S0 →
        (∀ t ∈ targets, (scan_target t (probe t)).outcome ≠ .failure) →
        ∃ S1,
          scanner_load_state (scannerRunCore probe targets S0 csv0 orig).world.stateFile
              = .ok S1 ∧
            (scannerRunCore probe targets S1
                ((scannerRunCore probe targets S0 csv0 orig).world.csvFile.getD [])
                (scannerRunCore probe targets S0 csv0 orig).world.stateFile).invocations
              = 0 ∧
            (scannerRunCore probe targets S1
                ((scannerRunCore probe targets S0 csv0 orig).world.csvFile.getD [])
                (scannerRunCore probe targets S0 csv0 orig).world.stateFile).world.csvFile
              = (scannerRunCore probe targets S0 csv0 orig).world.csvFile) ∧
    (∀ (probe : String → String → Bool) (order order2 : List (String × String))
        (intr2 : Option Nat) (w : CWorld) (rows : List (String × String)),
        w.nmapCsv = some rows →
        order.Perm (hostsToCheck (loadResultDoc (load_state w.stateFile)).checked rows) →
        (checker_main probe order2 intr2
            (checker_main probe order none w).world).invocations = 0 ∧
          (checker_main probe order2 intr2
              (checker_main probe order none w).world).world.ollamaCsv
            = (checker_main probe order none w).world.ollamaCsv) :=
  ⟨scanner_rerun_zero, checker_rerun_zero⟩

/-- Concrete instance of Claim C3: one scanner target whose probe
succeeds, and one checker unit, each run twice. -/
theorem idempotent_resume_witness :
    (scanner_load_state (none : Option ScannerStateFile) = .ok [] ∧
      (∀ t ∈ ["a"],
        (scan_target t ((fun _ _ => ScanAttempt.ok [("h", [11434])]) t)).outcome
          ≠ ScanOutcome.failure) ∧
      (∃ S1,
        scanner_load_state
            (scannerRunCore (fun _ _ => ScanAttempt.ok [("h", [11434])]) ["a"] [] [] none).world.stateFile
            = .ok S1 ∧
          (scannerRunCore (fun _ _ => ScanAttempt.ok [("h", [11434])]) ["a"] S1
              ((scannerRunCore (fun _ _ => ScanAttempt.ok [("h", [11434])]) ["a"] [] [] none).world.csvFile.getD [])
              (scannerRunCore (fun _ _ => ScanAttempt.ok [("h", [11434])]) ["a"] [] [] none).world.stateFile).invocations
            = 0 ∧
          (scannerRunCore (fun _ _ => ScanAttempt.ok [("h", [11434])]) ["a"] S1
              ((scannerRunCore (fun _ _ => ScanAttempt.ok [("h", [11434])]) ["a"] [] [] none).world.csvFile.getD [])
              (scannerRunCore (fun _ _ => ScanAttempt.ok [("h", [11434])]) ["a"] [] [] none).world.stateFile).world.csvFile
            = (scannerRunCore (fun _ _ => ScanAttempt.ok [("h", [11434])]) ["a"] [] [] none).world.csvFile)) ∧
    ((⟨none, some [("h", "80")], none⟩ : CWorld).nmapCsv = some [("h", "80")] ∧
      List.Perm [("h", "80")]
        (hostsToCheck
          (loadResultDoc (load_state (⟨none, some [("h", "80")], none⟩ : CWorld).stateFile)).checked
          [("h", "80")]) ∧
      ((checker_main (fun _ _ => true) [] none
            (checker_main (fun _ _ => true) [("h", "80")] none
              ⟨none, some [("h", "80")], none⟩).world).invocations = 0 ∧
        (checker_main (fun _ _ => true) [] none
            (checker_main (fun _ _ => true) [("h", "80")] none
              ⟨none, some [("h", "80")], none⟩).world).world.ollamaCsv
          = (checker_main (fun _ _ => true) [("h", "80")] none
              ⟨none, some [("h", "80")], none⟩).world.ollamaCsv)) :=
  ⟨⟨rfl, by decide,
    idempotent_resume.1 (fun _ _ => ScanAttempt.ok [("h", [11434])]) ["a"] [] [] none
      rfl (by decide)⟩,
   ⟨rfl, by decide,
    idempotent_resume.2 (fun _ _ => true) [("h", "80")] [] none
      ⟨none, some [("h", "80")], none⟩ [("h", "80")] rfl (by decide)⟩⟩

/-! ## Claim theorems (Result Sink policy) -/

/-- Claim C7: an outcome is written to the Result Sink if and only if its
status is success and its domain payload is non-empty.  Scanner side: a
row reaches the CSV exactly when some attempt within the retry budget
succeeded (all earlier ones having raised) and the row belongs to a
scanned host whose open-port list is non-empty — so failure outcomes and
empty-payload successes append nothing.  Checker side: the `found`
accumulator (from which `ollama.csv` is written) grows during a run by
exactly the units whose liveness flag is positive. -/
theorem sink_write_policy :
    (∀ (t : String) (probe : Nat → ScanAttempt) (r : Row),
      Ev.appendRow r ∈ (scan_target t probe).events ↔
        ∃ k hosts, k < RETRIES ∧ (∀ j < k, probe j = .raises) ∧
          probe k = .ok hosts ∧
          ∃ h ∈ hosts, ¬(openPortStrs h.2).isEmpty ∧ r = hostRow h) ∧
    (∀ (probe : String → String → Bool) (n : Nat)
        (order : List (String × String)) (st : CLoopSt),
      (checkerLoop probe n order none st).1.foundList
          = st.foundList ++ order.filter (fun r => probe r.1 r.2) ∧
        ∀ rec, rec ∈ (checkerLoop probe n order none st).1.foundList ↔
          rec ∈ st.foundList ∨ (rec ∈ order ∧ probe rec.1 rec.2 = true)) := by
  constructor
  · intro t probe r
    have h := appendRow_mem_scanLoop_iff t probe r RETRIES 0
    simp only [Nat.zero_add] at h
    constructor
    · intro hm
      obtain ⟨k, hosts, hk, hb, ho, hr⟩ := h.1 hm
      exact ⟨k, hosts, hk, hb, ho, mem_rowsFor.1 hr⟩
    · rintro ⟨k, hosts, hk, hb, ho, hr⟩
      exact h.2 ⟨k, hosts, hk, hb, ho, mem_rowsFor.2 hr⟩
  · intro probe n order st
    have h := checkerLoop_none probe n order st
    refine ⟨h.2.2, ?_⟩
    intro rec
    rw [h.2.2]
    simp [List.mem_append, List.mem_filter]

/-! ## Claim theorems (exit behavior) -/

/-- Claim C8 counterexample: when the scanner's input file (data.json) is
missing or unreadable, the process exits via `sys.exit("Error reading the
JSON file.")` — non-zero status 1, but the fixed message does not name
the missing path, contradicting the claim's "message naming the missing
path" for this process. -/
theorem scanner_exit_message_counterexample :
    scanner_data_load (none : Option (List (String × String)))
        = .error (1, "Error reading the JSON file.") ∧
      containsSub "data.json".data "Error reading the JSON file.".data = false :=
  ⟨rfl, by decide⟩

/-- Claim C8 (amended): the checker exits 0 on normal completion, exits
with the distinct non-zero code 1 and a message naming the missing path
(nmap_results.csv) when its input file is not found, and on an
interruption exits 0 after flushing the Checkpoint State (the state file
holds exactly the last persisted document) while printing the message
instructing the operator that re-running resumes.  The scanner, however,
exits 1 with the fixed message "Error reading the JSON file." when its
input is missing — a message that does not name the missing path (and its
scan loop installs no interruption handler). -/
theorem exit_behavior (probe : String → String → Bool)
    (order : List (String × String)) (intr : Option Nat) (w : CWorld)
    (rows : List (String × String)) (k : Nat) :
    (w.nmapCsv = none →
      (checker_main probe order intr w).exitCode = 1 ∧
        ∃ m ∈ (checker_main probe order intr w).msgs,
          containsSub "nmap_results.csv".data m.data = true) ∧
    (w.nmapCsv = some rows → intr = none →
      (checker_main probe order intr w).exitCode = 0) ∧
    (w.nmapCsv = some rows → intr = some k → k < order.length →
      ¬(hostsToCheck (loadResultDoc (load_state w.stateFile)).checked rows).isEmpty →
      (checker_main probe order intr w).exitCode = 0 ∧
        (∃ doc, (checker_main probe order intr w).world.stateFile
            = some (.valid doc) ∧
          ((checker_main probe order intr w).savedDocs).getLast? = some doc) ∧
        "Run the script again to resume from where you left off."
          ∈ (checker_main probe order intr w).msgs) ∧
    (scanner_data_load (none : Option (List (String × String)))
        = .error (1, "Error reading the JSON file.") ∧
      containsSub "data.json".data "Error reading the JSON file.".data = false) := by
  refine ⟨?_, ?_, ?_, rfl, by decide⟩
  · intro hnone
    refine ⟨by simp [checker_main, hnone],
      ⟨"Error: nmap_results.csv not found", ?_, by decide⟩⟩
    simp [checker_main, hnone]
  · intro hcsv hintr
    subst hintr
    obtain ⟨doc0, hdoc0⟩ : ∃ x, loadResultDoc (load_state w.stateFile) = x := ⟨_, rfl⟩
    by_cases hemp : (hostsToCheck doc0.checked rows).isEmpty
    · simp [checker_main, hcsv, hdoc0, hemp]
    · have hflag := (checkerLoop_none probe
        (hostsToCheck doc0.checked rows).length order
        ⟨doc0.checked, doc0.found, doc0.checked.length, doc0.found.length, []⟩).1
      simp [checker_main, hcsv, hdoc0, hemp, hflag]
  · intro hcsv hintr hk hemp
    subst hintr
    obtain ⟨doc0, hdoc0⟩ : ∃ x, loadResultDoc (load_state w.stateFile) = x := ⟨_, rfl⟩
    rw [hdoc0] at hemp
    have hflag := checkerLoop_interrupted probe
      (hostsToCheck doc0.checked rows).length order k
      ⟨doc0.checked, doc0.found, doc0.checked.length, doc0.found.length, []⟩ hk
    refine ⟨?_, ⟨⟨(checkerLoop probe (hostsToCheck doc0.checked rows).length order (some k)
        ⟨doc0.checked, doc0.found, doc0.checked.length, doc0.found.length, []⟩).1.checkedSet,
      (checkerLoop probe (hostsToCheck doc0.checked rows).length order (some k)
        ⟨doc0.checked, doc0.found, doc0.checked.length, doc0.found.length, []⟩).1.foundList⟩,
        ?_, ?_⟩, ?_⟩ <;>
      simp [checker_main, hcsv, hdoc0, hemp, hflag]

/-- Concrete instance of the amended Claim C8: missing input file,
normal completion, and an interrupt after zero completions. -/
theorem exit_behavior_witness :
    ((⟨none, none, none⟩ : CWorld).nmapCsv = none ∧
      ((checker_main (fun _ _ => true) [] none ⟨none, none, none⟩).exitCode = 1 ∧
        ∃ m ∈ (checker_main (fun _ _ => true) [] none ⟨none, none, none⟩).msgs,
          containsSub "nmap_results.csv".data m.data = true)) ∧
    ((⟨none, some [("h", "80")], none⟩ : CWorld).nmapCsv = some [("h", "80")] ∧
      (checker_main (fun _ _ => true) [("h", "80")] none
          ⟨none, some [("h", "80")], none⟩).exitCode = 0) ∧
    (¬(hostsToCheck
        (loadResultDoc
          (load_state (⟨none, some [("h", "80")], none⟩ : CWorld).stateFile)).checked
        [("h", "80")]).isEmpty ∧
      ((checker_main (fun _ _ => true) [("h", "80")] (some 0)
            ⟨none, some [("h", "80")], none⟩).exitCode = 0 ∧
        (∃ doc, (checker_main (fun _ _ => true) [("h", "80")] (some 0)
              ⟨none, some [("h", "80")], none⟩).world.stateFile
            = some (.valid doc) ∧
          ((checker_main (fun _ _ => true) [("h", "80")] (some 0)
              ⟨none, some [("h", "80")], none⟩).savedDocs).getLast? = some doc) ∧
        "Run the script again to resume from where you left off."
          ∈ (checker_main (fun _ _ => true) [("h", "80")] (some 0)
              ⟨none, some [("h", "80")], none⟩).msgs)) :=
  ⟨⟨rfl, (exit_behavior (fun _ _ => true) [] none ⟨none, none, none⟩ [] 0).1 rfl⟩,
   ⟨rfl, (exit_behavior (fun _ _ => true) [("h", "80")] none
      ⟨none, some [("h", "80")], none⟩ [("h", "80")] 0).2.1 rfl rfl⟩,
   by decide,
   (exit_behavior (fun _ _ => true) [("h", "80")] (some 0)
      ⟨none, some [("h", "80")], none⟩ [("h", "80")] 0).2.2.1 rfl rfl
      (by decide) (by decide)⟩

/-! ## Claim theorems (checkpoint/sink ordering) -/

/-- Claim C1: a unit's key is marked complete in the persisted Checkpoint
State only strictly after (or atomically with) its interesting outcome
being durably appended to the Result Sink.  Scanner side: along every
interleaving of the per-target effect traces — any schedule the thread
pool can produce — starting from a consistently-initialized
configuration, every target in the on-disk completed list has all of its
interesting rows in the CSV at every reachable point (rows are appended
before the in-memory mark, which precedes the save that publishes it).
Checker side: every checkpoint document a run persists is the atomic
snapshot of a prefix of the completion order, containing the keys of that
prefix together with exactly its interesting outcomes, so the on-disk
checkpoint is never ahead of the durable `found` accumulator. -/
theorem checkpoint_never_ahead_of_sink :
    (∀ (probe : String → Nat → ScanAttempt) (targets S0 : List String)
        (csv0 : List Row) (cfg : SConfig),
        (∀ t ∈ S0, ∀ r ∈ rowsOfTarget probe t, r ∈ csv0) →
        SchedReach (initConfig probe targets S0 csv0) cfg →
        ∀ t ∈ cfg.1.diskState, ∀ r ∈ rowsOfTarget probe t, r ∈ cfg.1.csv) ∧
    (∀ (probe : String → String → Bool) (order : List (String × String))
        (intr : Option Nat) (w : CWorld) (rows : List (String × String)),
        w.nmapCsv = some rows →
        ∀ d ∈ (checker_main probe order intr w).savedDocs,
          DocGood probe (loadResultDoc (load_state w.stateFile)).checked
            (loadResultDoc (load_state w.stateFile)).found order d) := by
  constructor
  · intro probe targets S0 csv0 cfg hS hreach
    exact (goodCfg_reach (goodCfg_init probe targets S0 csv0 hS) hreach).2.1
  · intro probe order intr w rows hcsv d hd
    obtain ⟨doc0, hdoc0⟩ : ∃ x, loadResultDoc (load_state w.stateFile) = x := ⟨_, rfl⟩
    rw [hdoc0]
    by_cases hemp : (hostsToCheck doc0.checked rows).isEmpty
    · simp [checker_main, hcsv, hdoc0, hemp] at hd
    · have hres := checkerLoop_savedDocs probe (hostsToCheck doc0.checked rows).length
        doc0.checked doc0.found order intr
        ⟨doc0.checked, doc0.found, doc0.checked.length, doc0.found.length, []⟩ []
        (by simp) (by simp) (by simp)
      rw [List.nil_append] at hres
      by_cases hflag : (checkerLoop probe (hostsToCheck doc0.checked rows).length
          order intr
          ⟨doc0.checked, doc0.found, doc0.checked.length, doc0.found.length, []⟩).2
      · simp [checker_main, hcsv, hdoc0, hemp, hflag] at hd
        rcases hd with hd | hd
        · exact hres.1 d hd
        · rw [hd]
          exact hres.2
      · simp [checker_main, hcsv, hdoc0, hemp, hflag] at hd
        rcases hd with hd | hd
        · exact hres.1 d hd
        · rw [hd]
          exact hres.2

/-- Concrete instance of Claim C1: a previously-completed scanner target
with its row already in the CSV, and one checker run over one unit. -/
theorem checkpoint_never_ahead_of_sink_witness :
    ((∀ t ∈ ["t0"],
        ∀ r ∈ rowsOfTarget (fun _ _ => ScanAttempt.ok [("h", [11434])]) t,
          r ∈ [["h", "11434"]]) ∧
      SchedReach
        (initConfig (fun _ _ => ScanAttempt.ok [("h", [11434])]) ["a"] ["t0"]
          [["h", "11434"]])
        (initConfig (fun _ _ => ScanAttempt.ok [("h", [11434])]) ["a"] ["t0"]
          [["h", "11434"]]) ∧
      (∀ t ∈ (initConfig (fun _ _ => ScanAttempt.ok [("h", [11434])]) ["a"] ["t0"]
            [["h", "11434"]]).1.diskState,
        ∀ r ∈ rowsOfTarget (fun _ _ => ScanAttempt.ok [("h", [11434])]) t,
          r ∈ (initConfig (fun _ _ => ScanAttempt.ok [("h", [11434])]) ["a"] ["t0"]
            [["h", "11434"]]).1.csv)) ∧
    ((⟨none, some [("h", "80")], none⟩ : CWorld).nmapCsv = some [("h", "80")] ∧
      ∀ d ∈ (checker_main (fun _ _ => true) [("h", "80")] none
          ⟨none, some [("h", "80")], none⟩).savedDocs,
        DocGood (fun _ _ => true)
          (loadResultDoc
            (load_state (⟨none, some [("h", "80")], none⟩ : CWorld).stateFile)).checked
          (loadResultDoc
            (load_state (⟨none, some [("h", "80")], none⟩ : CWorld).stateFile)).found
          [("h", "80")] d) :=
  ⟨⟨by decide, Relation.ReflTransGen.refl,
    checkpoint_never_ahead_of_sink.1 (fun _ _ => ScanAttempt.ok [("h", [11434])])
      ["a"] ["t0"] [["h", "11434"]]
      (initConfig (fun _ _ => ScanAttempt.ok [("h", [11434])]) ["a"] ["t0"]
        [["h", "11434"]])
      (by decide) Relation.ReflTransGen.refl⟩,
   ⟨rfl,
    checkpoint_never_ahead_of_sink.2 (fun _ _ => true) [("h", "80")] none
      ⟨none, some [("h", "80")], none⟩ [("h", "80")] rfl⟩⟩

/-! ## Claim theorems (fetch_ollama_info envelope) -/

/-- Claim C9: for every host string, timeout, and transport behavior,
`fetch_ollama_info` is total — the model returns a plain dict, and the
bare `except Exception` covers everything the `try` body can raise — and
the returned dict has exactly the keys host, status, models, runtime,
error (in insertion order), with status = "error" exactly when the error
field is non-None and status = "ok" exactly when it is None. -/
theorem fetch_ollama_info_envelope (host : String) (timeout : ℚ) (http : ℚ → HttpOut) :
    (fetch_ollama_info host timeout http).map Prod.fst
        = ["host", "status", "models", "runtime", "error"] ∧
      (dictGet (fetch_ollama_info host timeout http) "status" = some (.str "error") ↔
        dictGet (fetch_ollama_info host timeout http) "error" ≠ some .noneV) ∧
      (dictGet (fetch_ollama_info host timeout http) "status" = some (.str "ok") ↔
        dictGet (fetch_ollama_info host timeout http) "error" = some .noneV) := by
  simp only [fetch_ollama_info]
  set B := (if host.startsWith "http://" || host.startsWith "https://" then
      pyRstripSlash host
    else "http://" ++ pyRstripSlash host) with hB
  cases h : fetch_try B (http timeout) with
  | ok ms => simp [h, dictSet, dictGet, List.find?]
  | error e => simp [h, dictSet, dictGet, List.find?]

end PortRecon
